import Mathlib

/-!
Verification development for an Auth0 organization monitor.

The program polls the Auth0 Management API for organizations, diffs the
listing against a locally persisted JSON snapshot, enriches each new
organization with member profile data, formats a Slack notification, and
overwrites the snapshot.  The definitions below are a shallow embedding of
`get_organizations.py`: pure helpers become Lean functions, the process-wide
token cache becomes explicit state passing, HTTP calls become explicit
result parameters, and the snapshot file becomes an `Option String` (the
file contents, `none` when the file does not exist).  Timestamps are
rationals, mirroring the numeric timestamps the program manipulates.
-/

namespace OrgMonitor

/-- An organization record as returned by the listing endpoint and persisted
in the snapshot file: `id`, `name`, `display_name`, `created_at`. -/
structure Organization where
  id : String
  name : String
  display_name : String
  created_at : String
deriving DecidableEq, Repr

/-- `find_new_organizations(current_orgs, previous_orgs)`: builds the set of
previous ids and keeps the current organizations whose id is not in it. -/
def find_new_organizations (current_orgs previous_orgs : List Organization) :
    List Organization :=
  let previous_ids := previous_orgs.map Organization.id
  current_orgs.filter (fun org => !(previous_ids.contains org.id))

/-- C1: `find_new` keeps exactly the elements of `current` whose id does not
occur among the ids of `previous`, in `current`'s relative order (it is a
sublist of `current`), and is empty whenever every id of `current` already
occurs in `previous`.  (The embedding is a pure function, so the inputs are
trivially unmodified.) -/
theorem find_new_organizations_spec (current previous : List Organization) :
    find_new_organizations current previous
      = current.filter (fun org => decide (org.id ∉ previous.map Organization.id))
    ∧ List.Sublist (find_new_organizations current previous) current
    ∧ ((∀ org ∈ current, org.id ∈ previous.map Organization.id) →
        find_new_organizations current previous = []) := by
  have hfil : find_new_organizations current previous
      = current.filter (fun org => decide (org.id ∉ previous.map Organization.id)) := by
    unfold find_new_organizations
    simp only [List.contains, List.elem_eq_mem]
    congr 1
    funext org
    by_cases h : org.id ∈ previous.map Organization.id <;> simp [h]
  refine ⟨hfil, ?_, ?_⟩
  · rw [hfil]; exact List.filter_sublist current
  · intro hall
    rw [hfil, List.filter_eq_nil_iff]
    intro org hmem
    simp [hall org hmem]

def orgA : Organization := ⟨"A", "Acme", "Acme Inc", "2024-01-01"⟩
def orgB : Organization := ⟨"B", "Beta", "Beta LLC", "2024-02-02"⟩

theorem find_new_organizations_spec_witness :
    find_new_organizations [orgA, orgB] [orgA] = [orgB] ∧
    find_new_organizations [orgA] [orgA, orgB] = [] := by
  constructor
  · have h := (find_new_organizations_spec [orgA, orgB] [orgA]).1
    rw [h]; decide
  · exact (find_new_organizations_spec [orgA] [orgA, orgB]).2.2 (by decide)

/-! ## Token cache (`get_auth0_token`)

The process-wide globals `cached_token` / `token_expiry` become an explicit
`TokenState`; `datetime.now().timestamp()` becomes the `now` argument; the
POST to the token endpoint becomes the `exchange` argument (`none` models any
exception the `except` block catches: network error, `raise_for_status` on a
non-2xx response, or a body without an `access_token` key).  Python's `0.9`
is modelled as the exact rational `9 / 10`. -/

/-- A successful token-endpoint response body: the `access_token` plus the
optional `expires_in` ttl in seconds (`token_data.get('expires_in', 3600)`
defaults it to 3600 when absent). -/
structure TokenResponse where
  access_token : String
  expires_in : Option ℚ
deriving DecidableEq, Repr

/-- The process-wide cache globals `cached_token` and `token_expiry`
(`none` models Python `None`, their initial value). -/
structure TokenState where
  cached_token : Option String
  token_expiry : Option ℚ
deriving DecidableEq, Repr

/-- The guard `if cached_token and token_expiry and now < token_expiry`.
Python truthiness makes the empty-string token and a zero expiry falsy. -/
def token_cache_valid (st : TokenState) (now : ℚ) : Bool :=
  match st.cached_token, st.token_expiry with
  | some tok, some expiry => tok != "" && expiry != 0 && decide (now < expiry)
  | _, _ => false

/-- `get_auth0_token()`: return the cached token while the guard holds,
otherwise run the client-credentials exchange; on success cache the fresh
token with expiry `now + expires_in * 0.9`, on any exception print and
return `None` leaving the globals untouched. -/
def get_auth0_token (st : TokenState) (now : ℚ) (exchange : Option TokenResponse) :
    Option String × TokenState :=
  if token_cache_valid st now then
    (st.cached_token, st)
  else
    match exchange with
    | some token_data =>
        let tok := token_data.access_token
        let expiry := now + token_data.expires_in.getD 3600 * (9 / 10 : ℚ)
        (some tok, { cached_token := some tok, token_expiry := some expiry })
    | none => (none, st)

/-- C3 (amended): while the cache guard holds — which besides `now` being
strictly before the stored expiry requires the cached token to be non-empty
and the expiry nonzero, by Python truthiness — `get_auth0_token` returns the
cached value and state unchanged for every possible exchange outcome (so no
exchange is performed and a second call in the window returns the identical
value); when the guard fails, one exchange runs and a successful response is
stored with expiry `now + 0.9 * ttl` and returned; and whenever the stored
expiry is `≤ now` the result is exactly the exchange-branch result, so a
stale cached token is never returned from the cache. -/
theorem get_auth0_token_spec (st : TokenState) (now : ℚ) :
    (token_cache_valid st now = true →
      ∀ exchange, get_auth0_token st now exchange = (st.cached_token, st))
    ∧ (token_cache_valid st now = false →
        (∀ td, get_auth0_token st now (some td)
            = (some td.access_token,
               { cached_token := some td.access_token,
                 token_expiry := some (now + td.expires_in.getD 3600 * (9 / 10 : ℚ)) }))
        ∧ get_auth0_token st now none = (none, st))
    ∧ (∀ e, st.token_expiry = some e → e ≤ now →
        ∀ exchange, get_auth0_token st now exchange
          = match exchange with
            | some td =>
                (some td.access_token,
                 { cached_token := some td.access_token,
                   token_expiry := some (now + td.expires_in.getD 3600 * (9 / 10 : ℚ)) })
            | none => (none, st)) := by
  refine ⟨?_, ?_, ?_⟩
  · intro hv exchange
    simp [get_auth0_token, hv]
  · intro hv
    constructor
    · intro td; simp [get_auth0_token, hv]
    · simp [get_auth0_token, hv]
  · intro e he hle exchange
    have hv : token_cache_valid st now = false := by
      unfold token_cache_valid
      cases htok : st.cached_token with
      | none => simp
      | some tok =>
          rw [he]
          have : ¬ now < e := not_lt.mpr hle
          simp [this]
    cases exchange with
    | none => simp [get_auth0_token, hv]
    | some td => simp [get_auth0_token, hv]

theorem get_auth0_token_spec_witness :
    get_auth0_token ⟨some "tok", some 100⟩ 50 (some ⟨"fresh", some 1000⟩)
      = (some "tok", ⟨some "tok", some 100⟩)
    ∧ get_auth0_token ⟨some "old", some 40⟩ 50 (some ⟨"fresh", some 1000⟩)
      = (some "fresh", ⟨some "fresh", some 950⟩) := by
  constructor
  · exact (get_auth0_token_spec ⟨some "tok", some 100⟩ 50).1 (by decide)
      (some ⟨"fresh", some 1000⟩)
  · have h := ((get_auth0_token_spec ⟨some "old", some 40⟩ 50).2.1 (by decide)).1
      ⟨"fresh", some 1000⟩
    rw [h]
    norm_num

/-- C3, claim as stated, is false: with a cached *empty-string* token whose
stored expiry is 100, a call at time 50 — strictly before the expiry — does
not return the cached value; Python truthiness of `cached_token` sends it to
a fresh exchange instead. -/
theorem get_auth0_token_counterexample :
    get_auth0_token ⟨some "", some 100⟩ 50 (some ⟨"fresh", some 1000⟩)
      = (some "fresh", ⟨some "fresh", some 950⟩)
    ∧ (get_auth0_token ⟨some "", some 100⟩ 50 (some ⟨"fresh", some 1000⟩)).1
      ≠ some "" := by
  constructor
  · show (if token_cache_valid ⟨some "", some 100⟩ 50 then _ else _) = _
    norm_num [token_cache_valid, get_auth0_token]
  · intro h
    have : ("fresh" : String) = "" := by
      have h2 : (get_auth0_token ⟨some "", some 100⟩ 50
          (some ⟨"fresh", some 1000⟩)).1 = some "fresh" := by
        norm_num [token_cache_valid, get_auth0_token]
      rw [h2] at h
      exact Option.some.inj h
    simp at this

/-- C9: when the exchange fails in any of the modelled ways (network error,
non-2xx, missing access token — all collapsed into `exchange = none`, since
the `except` block catches them identically before any assignment), the
cache state is returned exactly as it was; and unless the cache guard still
holds (in which case no exchange was attempted at all), the returned token
is `none` — an expired cached token is never handed back as a fallback. -/
theorem get_auth0_token_failure_spec (st : TokenState) (now : ℚ) :
    (get_auth0_token st now none).2 = st
    ∧ (token_cache_valid st now = false → (get_auth0_token st now none).1 = none) := by
  constructor
  · unfold get_auth0_token
    split <;> rfl
  · intro hv
    simp [get_auth0_token, hv]

theorem get_auth0_token_failure_spec_witness :
    (get_auth0_token ⟨some "old", some 40⟩ 50 none).2 = ⟨some "old", some 40⟩
    ∧ (get_auth0_token ⟨some "old", some 40⟩ 50 none).1 = none :=
  ⟨(get_auth0_token_failure_spec ⟨some "old", some 40⟩ 50).1,
   (get_auth0_token_failure_spec ⟨some "old", some 40⟩ 50).2 (by decide)⟩

/-! ## Slack message formatting (`format_slack_message`)

A member dict may lack keys, so every field is an `Option`: `none` models an
absent key (for `github_url`, equally an explicit `None` value — the code
reads it only through `member.get`, which cannot tell the two apart).  The
`datetime.now().strftime(...)` timestamp becomes the `now` argument.  The
Python function builds a list of lines and joins it with newlines, so the
embedding exposes the list (`format_slack_message_list`) and the joined
string (`format_slack_message`). -/

/-- A (possibly partial) enriched-member dict: `name`, `email`, `github_url`. -/
structure MemberDict where
  name : Option String
  email : Option String
  github_url : Option String
deriving DecidableEq, Repr

/-- One member bullet line.  The GitHub link is rendered only when
`member.get('github_url')` is truthy, i.e. present, non-`None` and
non-empty; `name`/`email` fall back to `'Unknown'` / `'No email'`. -/
def member_line (member : MemberDict) : String :=
  let github_link :=
    match member.github_url with
    | some url => if url = "" then "" else " (<" ++ url ++ "|GitHub>)"
    | none => ""
  "• " ++ member.name.getD "Unknown" ++ " (" ++ member.email.getD "No email" ++ ")"
    ++ github_link

/-- The list of lines `format_slack_message` builds before joining: a fixed
six-line header (banner, name, display name, id, timestamp, members
heading), then one line per member, or the literal no-members line. -/
def format_slack_message_list (org : Organization) (members : List MemberDict)
    (now : String) : List String :=
  ["*New Organization Found!* 🎉",
   "*Name:* " ++ org.name,
   "*Display Name:* " ++ org.display_name,
   "*ID:* " ++ org.id,
   "*Time:* " ++ now,
   "\n*Members:*"]
  ++ (if members.isEmpty then ["No members found"] else members.map member_line)

/-- `format_slack_message(org, members)`: the lines joined with newlines. -/
def format_slack_message (org : Organization) (members : List MemberDict)
    (now : String) : String :=
  String.intercalate "\n" (format_slack_message_list org members now)

/-- C6 (amended): the rendering is deterministic — the newline-join of its
line list, whose first six lines are the header with the organization name,
display name, id and timestamp; with no members the remainder is exactly the
literal no-members line, and with N members it is exactly the N member
lines in order; a member line omits the profile link (coincides with the
line rendered for a null `profile_url`) exactly when `github_url` is null,
absent, **or the empty string** — Python truthiness also drops the link for
an empty-string url, which is the one correction to the claim. -/
theorem format_slack_message_spec (org : Organization) (members : List MemberDict)
    (now : String) :
    format_slack_message org members now
      = String.intercalate "\n" (format_slack_message_list org members now)
    ∧ (format_slack_message_list org members now).take 6
      = ["*New Organization Found!* 🎉",
         "*Name:* " ++ org.name,
         "*Display Name:* " ++ org.display_name,
         "*ID:* " ++ org.id,
         "*Time:* " ++ now,
         "\n*Members:*"]
    ∧ (members = [] →
        (format_slack_message_list org members now).drop 6 = ["No members found"])
    ∧ (members ≠ [] →
        (format_slack_message_list org members now).drop 6 = members.map member_line)
    ∧ (∀ m : MemberDict,
        member_line m = member_line { m with github_url := none }
          ↔ (m.github_url = none ∨ m.github_url = some "")) := by
  refine ⟨rfl, ?_, ?_, ?_, ?_⟩
  · rfl
  · intro h; subst h; rfl
  · intro h
    have : members.isEmpty = false := by
      cases members with
      | nil => exact absurd rfl h
      | cons a l => rfl
    simp [format_slack_message_list, this]
  · intro m
    constructor
    · intro heq
      by_contra hor
      push_neg at hor
      obtain ⟨hnone, hempty⟩ := hor
      cases hurl : m.github_url with
      | none => exact hnone hurl
      | some url =>
          have hne : url ≠ "" := fun h => hempty (by rw [hurl, h])
          have hlen := congrArg String.length heq
          simp only [member_line, hurl] at hlen
          rw [if_neg hne] at hlen
          simp only [String.length_append] at hlen
          have h3 : (" (<" : String).length = 3 := rfl
          have h9 : ("|GitHub>)" : String).length = 9 := rfl
          have h0 : ("" : String).length = 0 := rfl
          rw [h3, h9, h0] at hlen
          omega
    · intro hor
      cases hor with
      | inl h => rw [show m = { m with github_url := none } by
          cases m; simp_all]
      | inr h =>
          simp only [member_line, h]
          rfl

theorem format_slack_message_spec_witness :
    (format_slack_message_list orgB [] "2024-02-02 12:00:00").drop 6
      = ["No members found"]
    ∧ (format_slack_message_list orgB
        [⟨some "Ann", some "ann@example.com", some "https://github.com/ann"⟩]
        "2024-02-02 12:00:00").drop 6
      = [member_line ⟨some "Ann", some "ann@example.com", some "https://github.com/ann"⟩] := by
  constructor
  · exact (format_slack_message_spec orgB [] "2024-02-02 12:00:00").2.2.1 rfl
  · exact (format_slack_message_spec orgB
      [⟨some "Ann", some "ann@example.com", some "https://github.com/ann"⟩]
      "2024-02-02 12:00:00").2.2.2.1 (by simp)

/-- C6, claim as stated, is false: a member whose `github_url` is the
*empty string* — a non-null value — is rendered without any profile link;
the whole message coincides with the one rendered for a null url. -/
theorem format_slack_message_counterexample :
    format_slack_message orgB [⟨some "Ann", some "ann@example.com", some ""⟩] "2024"
      = format_slack_message orgB [⟨some "Ann", some "ann@example.com", none⟩] "2024"
    ∧ (some "" : Option String) ≠ none := by
  exact ⟨rfl, by simp⟩

/-- C10: a member line is rendered for every member however partial its
dict — it appears in the message's line list — with `'Unknown'` substituted
for a missing name (the line equals the one for an explicit `'Unknown'`
name), `'No email'` for a missing email, and the GitHub link omitted for a
missing or null `github_url`; the organization record itself only needs its
`name`, `display_name` and `id` fields (plus nothing of the members). -/
theorem member_line_defaults (org : Organization) (now : String)
    (members : List MemberDict) (m : MemberDict) (hm : m ∈ members) :
    member_line m ∈ format_slack_message_list org members now
    ∧ member_line { m with name := none }
        = member_line { m with name := some "Unknown" }
    ∧ member_line { m with email := none }
        = member_line { m with email := some "No email" }
    ∧ member_line { m with github_url := none }
        = "• " ++ m.name.getD "Unknown" ++ " (" ++ m.email.getD "No email" ++ ")" := by
  refine ⟨?_, rfl, rfl, ?_⟩
  · have hne : members.isEmpty = false := by
      cases members with
      | nil => cases hm
      | cons a l => rfl
    unfold format_slack_message_list
    rw [hne]
    simp only [Bool.false_eq_true, if_false, List.mem_append, List.mem_map]
    exact Or.inr ⟨m, hm, rfl⟩
  · simp [member_line]

theorem member_line_defaults_witness :
    member_line ⟨none, none, none⟩
      ∈ format_slack_message_list orgA [⟨none, none, none⟩] "2024"
    ∧ member_line ⟨none, none, none⟩ = "• Unknown (No email)" := by
  refine ⟨(member_line_defaults orgA "2024" [⟨none, none, none⟩]
    ⟨none, none, none⟩ (by simp)).1, rfl⟩

/-! ## Snapshot persistence (`save_previous_orgs` / `load_previous_orgs`)

The snapshot file becomes an `Option String`: `none` when
`previous_orgs.json` does not exist, otherwise its contents.
`json.dump` / `json.load` are modelled by an executable serializer and
parser for the canonical document the program writes: a JSON array of
flat organization objects with the four string fields in record order,
`json.dump`'s default separators (`", "` and `": "`), and string escaping
of the quote and backslash characters.  `load_previous_orgs` returns
`none` when the contents do not parse (modelling the `json.load` exception,
which propagates to the poll loop's handler). -/

/-- JSON string escaping for one character: quote and backslash get a
leading backslash, everything else is unchanged. -/
def escape_char (c : Char) : List Char :=
  if c = '"' ∨ c = '\\' then ['\\', c] else [c]

/-- JSON string escaping over a character list. -/
def escape_chars : List Char → List Char
  | [] => []
  | c :: cs => escape_char c ++ escape_chars cs

/-- A JSON string literal: escaped contents between quotes. -/
def json_quote (s : String) : String :=
  "\"" ++ String.mk (escape_chars s.data) ++ "\""

/-- The serialized form of one organization object. -/
def json_dump_org (org : Organization) : String :=
  "\x7b\"id\": " ++ json_quote org.id
    ++ ", \"name\": " ++ json_quote org.name
    ++ ", \"display_name\": " ++ json_quote org.display_name
    ++ ", \"created_at\": " ++ json_quote org.created_at
    ++ "\x7d"

/-- The comma-separated continuation of a serialized array. -/
def json_dumps_tail : List Organization → String
  | [] => ""
  | org :: t => ", " ++ json_dump_org org ++ json_dumps_tail t

/-- `json.dump(orgs, f)`: the serialized JSON array. -/
def json_dumps_orgs : List Organization → String
  | [] => "[]"
  | org :: t => "[" ++ json_dump_org org ++ json_dumps_tail t ++ "]"

/-- Consume an expected literal prefix character by character. -/
def strip_literal : List Char → List Char → Option (List Char)
  | [], s => some s
  | _ :: _, [] => none
  | p :: ps, c :: cs => if p = c then strip_literal ps cs else none

/-- Read an escaped string body up to the closing quote. -/
def parse_quoted_aux (acc : List Char) : List Char → Option (String × List Char)
  | [] => none
  | c :: rest =>
      if c = '"' then some (String.mk acc.reverse, rest)
      else if c = '\\' then
        match rest with
        | [] => none
        | d :: rest2 => parse_quoted_aux (d :: acc) rest2
      else parse_quoted_aux (c :: acc) rest

/-- Read a quoted JSON string literal. -/
def parse_quoted (s : List Char) : Option (String × List Char) :=
  match s with
  | [] => none
  | c :: rest => if c = '"' then parse_quoted_aux [] rest else none

/-- Parse one serialized organization object. -/
def parse_json_org (s : List Char) : Option (Organization × List Char) := do
  let s ← strip_literal ("\x7b\"id\": ").data s
  let (id_v, s) ← parse_quoted s
  let s ← strip_literal (", \"name\": ").data s
  let (name_v, s) ← parse_quoted s
  let s ← strip_literal (", \"display_name\": ").data s
  let (disp_v, s) ← parse_quoted s
  let s ← strip_literal (", \"created_at\": ").data s
  let (created_v, s) ← parse_quoted s
  let s ← strip_literal ("\x7d").data s
  return (⟨id_v, name_v, disp_v, created_v⟩, s)

/-- Parse the remainder of a serialized array after its first element:
either the closing bracket at end of input, or a separator followed by
another object.  `fuel` bounds the number of elements. -/
def parse_orgs_rest (fuel : Nat) (acc : List Organization) (s : List Char) :
    Option (List Organization) :=
  match s with
  | [] => none
  | c :: rest =>
      if c = ']' then (if rest = [] then some acc.reverse else none)
      else if c = ',' then
        match rest with
        | [] => none
        | d :: rest1 =>
            if d = ' ' then
              match fuel with
              | 0 => none
              | fuel + 1 =>
                  match parse_json_org rest1 with
                  | some (org, rest2) => parse_orgs_rest fuel (org :: acc) rest2
                  | none => none
            else none
      else none

/-- `json.load(f)` on the canonical snapshot document: the empty array, or
a first object followed by the comma-separated rest. -/
def json_loads_orgs (s : String) : Option (List Organization) :=
  match s.data with
  | [] => none
  | c :: rest =>
      if c = '[' then
        if rest = [']'] then some []
        else
          match parse_json_org rest with
          | some (org, rest2) => parse_orgs_rest rest2.length [org] rest2
          | none => none
      else none

/-- `save_previous_orgs(orgs)`: opening with mode `'w'` truncates, so the
previous contents are irrelevant — the file afterwards holds exactly the
serialized current listing. -/
def save_previous_orgs (orgs : List Organization) (fs : Option String) :
    Option String :=
  some (json_dumps_orgs orgs)

/-- `load_previous_orgs()`: the empty list when the file does not exist,
otherwise the parsed contents (`none` = the `json.load` exception). -/
def load_previous_orgs (fs : Option String) : Option (List Organization) :=
  match fs with
  | some contents => json_loads_orgs contents
  | none => some []

theorem strip_literal_append (p s : List Char) :
    strip_literal p (p ++ s) = some s := by
  induction p with
  | nil => rfl
  | cons c cs ih => simp [strip_literal, ih]

theorem parse_quoted_aux_step_quote (acc rest : List Char) :
    parse_quoted_aux acc ('"' :: rest) = some (String.mk acc.reverse, rest) := by
  rw [parse_quoted_aux.eq_def]; simp

theorem parse_quoted_aux_step_escape (acc rest : List Char) (c : Char) :
    parse_quoted_aux acc ('\\' :: c :: rest) = parse_quoted_aux (c :: acc) rest := by
  rw [parse_quoted_aux.eq_def]; simp

theorem parse_quoted_aux_step_plain (acc rest : List Char) (c : Char)
    (h1 : c ≠ '"') (h2 : c ≠ '\\') :
    parse_quoted_aux acc (c :: rest) = parse_quoted_aux (c :: acc) rest := by
  rw [parse_quoted_aux.eq_def]; simp [h1, h2]

theorem parse_quoted_aux_round (l : List Char) :
    ∀ acc rest, parse_quoted_aux acc (escape_chars l ++ '"' :: rest)
      = some (String.mk (acc.reverse ++ l), rest) := by
  induction l with
  | nil =>
      intro acc rest
      simp only [escape_chars, List.nil_append, parse_quoted_aux_step_quote]
      simp
  | cons c cs ih =>
      intro acc rest
      by_cases hc : c = '"' ∨ c = '\\'
      · have hesc : escape_char c = ['\\', c] := by
          unfold escape_char
          rw [if_pos hc]
        simp only [escape_chars, hesc, List.cons_append, List.nil_append,
          List.append_assoc]
        rw [parse_quoted_aux_step_escape, ih (c :: acc) rest]
        simp
      · push_neg at hc
        have hesc : escape_char c = [c] := by
          unfold escape_char
          rw [if_neg (by simp [hc.1, hc.2])]
        simp only [escape_chars, hesc, List.cons_append, List.nil_append,
          List.append_assoc]
        rw [parse_quoted_aux_step_plain acc _ c hc.1 hc.2, ih (c :: acc) rest]
        simp

theorem parse_quoted_round (v : String) (rest : List Char) :
    parse_quoted ((json_quote v).data ++ rest) = some (v, rest) := by
  have hdata : (json_quote v).data ++ rest
      = '"' :: (escape_chars v.data ++ '"' :: rest) := by
    simp [json_quote, String.data_append]
  rw [hdata, parse_quoted, if_pos rfl, parse_quoted_aux_round]
  simp

theorem parse_json_org_round (o : Organization) (rest : List Char) :
    parse_json_org ((json_dump_org o).data ++ rest) = some (o, rest) := by
  obtain ⟨i, n, d, c⟩ := o
  have h : (json_dump_org ⟨i, n, d, c⟩).data ++ rest
      = ("\x7b\"id\": ").data ++ ((json_quote i).data
        ++ ((", \"name\": ").data ++ ((json_quote n).data
          ++ ((", \"display_name\": ").data ++ ((json_quote d).data
            ++ ((", \"created_at\": ").data ++ ((json_quote c).data
              ++ (("\x7d").data ++ rest)))))))) := by
    simp [json_dump_org, String.data_append, List.append_assoc]
  rw [h]
  simp [parse_json_org, strip_literal, parse_quoted_round]

theorem json_dumps_tail_cons_data (o : Organization) (t : List Organization) :
    ((json_dumps_tail (o :: t) ++ "]") : String).data
      = ',' :: ' ' :: ((json_dump_org o).data
          ++ ((json_dumps_tail t ++ "]") : String).data) := by
  simp [json_dumps_tail, String.data_append, List.append_assoc]

theorem json_dumps_tail_length (t : List Organization) :
    t.length ≤ ((json_dumps_tail t ++ "]") : String).data.length := by
  induction t with
  | nil => simp
  | cons o t ih =>
      rw [json_dumps_tail_cons_data]
      simp only [List.length_cons, List.length_append]
      omega

theorem parse_orgs_rest_round (t : List Organization) :
    ∀ fuel acc, t.length ≤ fuel →
      parse_orgs_rest fuel acc ((json_dumps_tail t ++ "]") : String).data
        = some (acc.reverse ++ t) := by
  induction t with
  | nil =>
      intro fuel acc h
      have hd : ((json_dumps_tail [] ++ "]") : String).data = [']'] := rfl
      rw [hd, parse_orgs_rest.eq_def]
      simp
  | cons o t ih =>
      intro fuel acc h
      cases fuel with
      | zero => simp at h
      | succ f =>
          have hf : t.length ≤ f := by
            simp only [List.length_cons] at h
            omega
          rw [json_dumps_tail_cons_data, parse_orgs_rest.eq_def]
          simp only []
          have ih' := ih f (o :: acc) hf
          have hnorm : ((json_dumps_tail t ++ "]") : String).data
              = (json_dumps_tail t).data ++ [']'] := by
            simp [String.data_append]
          rw [hnorm] at ih'
          simp [parse_json_org_round, ih']

theorem json_loads_dumps (orgs : List Organization) :
    json_loads_orgs (json_dumps_orgs orgs) = some orgs := by
  cases orgs with
  | nil => rfl
  | cons o t =>
      have hdata : (json_dumps_orgs (o :: t)).data
          = '[' :: ((json_dump_org o).data
              ++ ((json_dumps_tail t ++ "]") : String).data) := by
        simp [json_dumps_orgs, String.data_append, List.append_assoc]
      have hp : parse_json_org ((json_dump_org o).data
            ++ ((json_dumps_tail t ++ "]") : String).data)
          = some (o, ((json_dumps_tail t ++ "]") : String).data) :=
        parse_json_org_round o _
      have hne : (json_dump_org o).data
            ++ ((json_dumps_tail t ++ "]") : String).data ≠ [']'] := by
        intro he
        rw [he] at hp
        have hnone : parse_json_org [']'] = none := rfl
        rw [hnone] at hp
        exact Option.noConfusion hp
      rw [json_loads_orgs.eq_def, hdata]
      simp only [if_pos rfl, if_neg hne, hp]
      rw [parse_orgs_rest_round t _ [o]
        (le_trans (json_dumps_tail_length t) le_rfl)]
      rfl

/-- C5: saving any sequence of organization records (empty included) and
loading it back returns exactly that sequence, whatever the file held
before (`json.dump` and `json.load` are modelled by the executable
serializer/parser above for the canonical document the program writes). -/
theorem save_load_round_trip (orgs : List Organization) (fs : Option String) :
    load_previous_orgs (save_previous_orgs orgs fs) = some orgs := by
  show json_loads_orgs (json_dumps_orgs orgs) = some orgs
  exact json_loads_dumps orgs

/-! ## Member enrichment (`get_organization_members` / `get_github_user_info`)

An HTTP call becomes an explicit `HttpResult`: `ok` is a status-200 response
with its parsed JSON body, `err s` any response with status `s ≠ 200`, and
`exn` an exception raised by the request itself.  The GitHub lookups a call
may perform become the `github_api` argument mapping a GitHub id to the
outcome of `GET /user/{id}`. -/

/-- Outcome of one HTTP request: a 200 response with parsed body, a
response with another status, or a raised exception. -/
inductive HttpResult (α : Type) where
  | ok : α → HttpResult α
  | err : Nat → HttpResult α
  | exn : HttpResult α
deriving DecidableEq, Repr

/-- A GitHub `GET /user/{id}` body; only `html_url` is read, via `.get`,
so it is optional. -/
structure GithubUserInfo where
  html_url : Option String
deriving DecidableEq, Repr

/-- `get_github_user_info(github_id)`: the parsed body on a 200 response,
`None` on any other status, `None` (after logging) on an exception. -/
def get_github_user_info (resp : HttpResult GithubUserInfo) :
    Option GithubUserInfo :=
  match resp with
  | .ok info => some info
  | .err _ => none
  | .exn => none

/-- A raw member object from the members endpoint; every key is read with
`.get`, so all fields are optional. -/
structure RawMember where
  user_id : Option String
  name : Option String
  email : Option String
deriving DecidableEq, Repr

/-- Python's substring test `needle in haystack`. -/
def substring_in (needle haystack : String) : Bool :=
  haystack.data.tails.any (fun t => needle.data.isPrefixOf t)

/-- `user_id.split('|')[-1]`: the last segment after splitting on `'|'`
(the split list is never empty, so indexing `[-1]` cannot fail). -/
def last_segment (user_id : String) : String :=
  (user_id.splitOn "|").getLastD ""

/-- The loop body of `get_organization_members`: one enriched dict per raw
member — the GitHub id is the last `'|'`-segment of `user_id` when
`'github'` occurs in it, the profile lookup runs only when that id is
truthy (non-empty), and its failure leaves `github_url = None`. -/
def enrich_member (github_api : String → HttpResult GithubUserInfo)
    (member : RawMember) : MemberDict :=
  let user_id := member.user_id.getD ""
  let github_id : Option String :=
    if substring_in "github" user_id then some (last_segment user_id)
    else none
  let github_info : Option GithubUserInfo :=
    match github_id with
    | some gid =>
        if gid = "" then none else get_github_user_info (github_api gid)
    | none => none
  { name := some (member.name.getD "Unknown"),
    email := some (member.email.getD "No email"),
    github_url :=
      match github_info with
      | some info => info.html_url
      | none => none }

/-- `get_organization_members(org_id, token)`: on a 200 response, enrich
every raw member in order; on a non-200 status or an exception, log and
return the empty list. -/
def get_organization_members (resp : HttpResult (List RawMember))
    (github_api : String → HttpResult GithubUserInfo) : List MemberDict :=
  match resp with
  | .ok members => members.map (enrich_member github_api)
  | .err _ => []
  | .exn => []

/-- C8: enrichment is per-member and isolated.  The output has one entry
per raw member; the entry for member `i` carries that member's (defaulted)
name and email; its `github_url` is null whenever the member's account
reference lacks the `'github'` marker or the profile lookup for its GitHub
id fails (non-200, exception, or a body with no `html_url`); and the entry
for member `i` depends only on the lookup outcome for member `i`'s own id —
two lookup functions agreeing there give identical entries, so any other
member's failure cannot affect it. -/
theorem get_organization_members_isolated (members : List RawMember)
    (github_api : String → HttpResult GithubUserInfo) :
    (get_organization_members (.ok members) github_api).length = members.length
    ∧ (∀ (i : Nat) (m : RawMember), members[i]? = some m →
        ∃ mo : MemberDict, (get_organization_members (.ok members) github_api)[i]? = some mo
          ∧ mo.name = some (m.name.getD "Unknown")
          ∧ mo.email = some (m.email.getD "No email")
          ∧ ((substring_in "github" (m.user_id.getD "") = false
               ∨ get_github_user_info
                   (github_api (last_segment (m.user_id.getD ""))) = none) →
              mo.github_url = none))
    ∧ (∀ (github_api2 : String → HttpResult GithubUserInfo) (i : Nat) (m : RawMember),
        members[i]? = some m →
        github_api (last_segment (m.user_id.getD ""))
          = github_api2 (last_segment (m.user_id.getD "")) →
        (get_organization_members (.ok members) github_api)[i]?
          = (get_organization_members (.ok members) github_api2)[i]?) := by
  refine ⟨by simp [get_organization_members], ?_, ?_⟩
  · intro i m hm
    refine ⟨enrich_member github_api m, ?_, rfl, rfl, ?_⟩
    · simp [get_organization_members, List.getElem?_map, hm]
    · intro hfail
      unfold enrich_member
      simp only
      by_cases hg : substring_in "github" (m.user_id.getD "") = true
      · cases hfail with
        | inl h => rw [h] at hg; exact absurd hg (by simp)
        | inr h =>
            by_cases he : last_segment (m.user_id.getD "") = ""
            · simp [hg, he]
            · simp [hg, he, h]
      · simp [hg]
  · intro api2 i m hm hag
    have hone : enrich_member github_api m = enrich_member api2 m := by
      unfold enrich_member
      simp only
      by_cases hg : substring_in "github" (m.user_id.getD "") = true
      · simp [hg, hag]
      · simp [hg]
    simp [get_organization_members, List.getElem?_map, hm, hone]

theorem get_organization_members_isolated_witness :
    ∃ mo, (get_organization_members
        (.ok [⟨some "auth0|123", some "Ann", some "a@x.io"⟩,
              ⟨some "github|", some "Bob", none⟩,
              ⟨some "github|77", none, some "c@x.io"⟩])
        (fun _ => .exn))[2]? = some mo
      ∧ mo.name = some "Unknown"
      ∧ mo.email = some "c@x.io"
      ∧ mo.github_url = none := by
  obtain ⟨mo, hmo, hn, he, hu⟩ :=
    (get_organization_members_isolated
      [⟨some "auth0|123", some "Ann", some "a@x.io"⟩,
       ⟨some "github|", some "Bob", none⟩,
       ⟨some "github|77", none, some "c@x.io"⟩]
      (fun _ => .exn)).2.1 2 ⟨some "github|77", none, some "c@x.io"⟩ (by rfl)
  exact ⟨mo, hmo, hn, he, hu (Or.inr rfl)⟩

/-! ## Poll loop (`poll_organizations`)

One iteration of the `while True` body.  The listing fetch becomes the
`fetch` argument (`Except.error` = any exception out of
`get_organizations`: network error, `raise_for_status` on non-2xx, a
missing token).  The result records the observable effects of the
iteration: the snapshot file afterwards, the Slack notifications sent, and
the sleep chosen before the next iteration (60 s on success,
5 * 60 s in the `except Exception` handler). -/

/-- Observable outcome of one poll iteration. -/
structure CycleResult where
  fs : Option String
  notifications : List String
  sleep_seconds : Nat
deriving DecidableEq, Repr

/-- One iteration of `poll_organizations`: fetch, load the previous
snapshot, diff, notify each new organization (enriching its members),
overwrite the snapshot, then sleep 60 s; any exception in fetch or load
reaches the handler, which leaves everything untouched and sleeps
5 * 60 s. -/
def poll_cycle (fs : Option String) (fetch : Except String (List Organization))
    (members_api : String → HttpResult (List RawMember))
    (github_api : String → HttpResult GithubUserInfo) (now : String) :
    CycleResult :=
  match fetch with
  | .error _ => { fs := fs, notifications := [], sleep_seconds := 5 * 60 }
  | .ok current_orgs =>
      match load_previous_orgs fs with
      | none => { fs := fs, notifications := [], sleep_seconds := 5 * 60 }
      | some previous_orgs =>
          let new_orgs := find_new_organizations current_orgs previous_orgs
          { fs := some (json_dumps_orgs current_orgs),
            notifications := new_orgs.map (fun org =>
              format_slack_message org
                (get_organization_members (members_api org.id) github_api) now),
            sleep_seconds := 60 }

/-- C2: a cycle whose listing fetch raises writes nothing — the snapshot
file is exactly the one from before the cycle, no notification is sent —
and the loop sleeps the 5-minute retry interval; a successful cycle (for
contrast) sleeps the 1-minute interval, and the failed cycle's unchanged
file means the next iteration fetches against the same comparison
baseline. -/
theorem poll_cycle_fetch_error (fs : Option String) (e : String)
    (members_api : String → HttpResult (List RawMember))
    (github_api : String → HttpResult GithubUserInfo) (now : String) :
    poll_cycle fs (.error e) members_api github_api now
      = { fs := fs, notifications := [], sleep_seconds := 5 * 60 }
    ∧ (∀ current prev, load_previous_orgs fs = some prev →
        (poll_cycle fs (.ok current) members_api github_api now).sleep_seconds
          = 60) := by
  constructor
  · rfl
  · intro current prev h
    simp [poll_cycle, h]

theorem poll_cycle_fetch_error_witness :
    poll_cycle none (.error "connection timed out")
        (fun _ => HttpResult.exn) (fun _ => HttpResult.exn) "2024"
      = { fs := none, notifications := [], sleep_seconds := 300 }
    ∧ (poll_cycle none (.ok [orgA])
        (fun _ => HttpResult.exn) (fun _ => HttpResult.exn) "2024").sleep_seconds
      = 60 := by
  have h := poll_cycle_fetch_error none "connection timed out"
    (fun _ => HttpResult.exn) (fun _ => HttpResult.exn) "2024"
  exact ⟨h.1, h.2 [orgA] [] rfl⟩

/-- C4: a successful cycle persists the full current listing wholesale —
the file afterwards is exactly the serialized current listing (loading it
back gives `current`, not any merge with the previous snapshot) — while the
notifications are exactly one formatted message per *new* organization, in
listing order, and each such message carries the organization's id line. -/
theorem poll_cycle_persists_current (fs : Option String)
    (current prev : List Organization)
    (members_api : String → HttpResult (List RawMember))
    (github_api : String → HttpResult GithubUserInfo) (now : String)
    (hload : load_previous_orgs fs = some prev) :
    (poll_cycle fs (.ok current) members_api github_api now).fs
      = some (json_dumps_orgs current)
    ∧ load_previous_orgs
        (poll_cycle fs (.ok current) members_api github_api now).fs
      = some current
    ∧ (poll_cycle fs (.ok current) members_api github_api now).notifications
      = (find_new_organizations current prev).map (fun org =>
          format_slack_message org
            (get_organization_members (members_api org.id) github_api) now)
    ∧ ∀ org ∈ find_new_organizations current prev,
        ("*ID:* " ++ org.id)
          ∈ format_slack_message_list org
              (get_organization_members (members_api org.id) github_api) now := by
  refine ⟨?_, ?_, ?_, ?_⟩
  · simp [poll_cycle, hload]
  · simp only [poll_cycle, hload]
    exact json_loads_dumps current
  · simp [poll_cycle, hload]
  · intro org hmem
    simp [format_slack_message_list]

theorem poll_cycle_persists_current_witness :
    (poll_cycle (some (json_dumps_orgs [orgA])) (.ok [orgA, orgB])
        (fun _ => HttpResult.err 403) (fun _ => HttpResult.exn) "2024").fs
      = some (json_dumps_orgs [orgA, orgB])
    ∧ load_previous_orgs
        (poll_cycle (some (json_dumps_orgs [orgA])) (.ok [orgA, orgB])
          (fun _ => HttpResult.err 403) (fun _ => HttpResult.exn) "2024").fs
      = some [orgA, orgB]
    ∧ (poll_cycle (some (json_dumps_orgs [orgA])) (.ok [orgA, orgB])
        (fun _ => HttpResult.err 403) (fun _ => HttpResult.exn) "2024").notifications
      = [format_slack_message orgB [] "2024"]
    ∧ ("*ID:* " ++ orgB.id)
        ∈ format_slack_message_list orgB [] "2024" := by
  have h := poll_cycle_persists_current (some (json_dumps_orgs [orgA]))
    [orgA, orgB] [orgA] (fun _ => HttpResult.err 403) (fun _ => HttpResult.exn)
    "2024" (json_loads_dumps [orgA])
  refine ⟨h.1, h.2.1, ?_, ?_⟩
  · rw [h.2.2.1]
    have hnew : find_new_organizations [orgA, orgB] [orgA] = [orgB] := by decide
    rw [hnew]
    rfl
  · have hnew : find_new_organizations [orgA, orgB] [orgA] = [orgB] := by decide
    have := h.2.2.2 orgB (by rw [hnew]; exact List.mem_singleton.mpr rfl)
    simpa using this

/-- C7: when the member-listing call for a new
organization returns a non-200 status, its member sequence is empty, the
notification for it is still sent and contains the literal no-members
line, and the cycle completes normally — snapshot overwritten, 60-second
sleep — instead of aborting. -/
theorem poll_cycle_member_listing_error (s : Nat) (fs : Option String)
    (current prev : List Organization) (now : String)
    (members_api : String → HttpResult (List RawMember))
    (github_api : String → HttpResult GithubUserInfo)
    (hload : load_previous_orgs fs = some prev)
    (org : Organization) (horg : org ∈ find_new_organizations current prev)
    (hresp : members_api org.id = .err s) :
    get_organization_members (members_api org.id) github_api = []
    ∧ "No members found"
        ∈ format_slack_message_list org
            (get_organization_members (members_api org.id) github_api) now
    ∧ format_slack_message org
          (get_organization_members (members_api org.id) github_api) now
        ∈ (poll_cycle fs (.ok current) members_api github_api now).notifications
    ∧ (poll_cycle fs (.ok current) members_api github_api now).sleep_seconds = 60
    ∧ (poll_cycle fs (.ok current) members_api github_api now).fs
        = some (json_dumps_orgs current) := by
  have hempty : get_organization_members (members_api org.id) github_api = [] := by
    rw [hresp]
    rfl
  refine ⟨hempty, ?_, ?_, ?_, ?_⟩
  · rw [hempty]
    simp [format_slack_message_list]
  · simp only [poll_cycle, hload]
    simp only [List.mem_map]
    exact ⟨org, horg, rfl⟩
  · simp [poll_cycle, hload]
  · simp [poll_cycle, hload]

theorem poll_cycle_member_listing_error_witness :
    get_organization_members (HttpResult.err 500) (fun _ => HttpResult.exn) = []
    ∧ "No members found"
        ∈ format_slack_message_list orgB
            (get_organization_members (HttpResult.err 500)
              (fun _ => HttpResult.exn)) "2024"
    ∧ (poll_cycle (some (json_dumps_orgs [orgA])) (.ok [orgA, orgB])
        (fun _ => HttpResult.err 500) (fun _ => HttpResult.exn) "2024").sleep_seconds
      = 60 := by
  have h := poll_cycle_member_listing_error 500 (some (json_dumps_orgs [orgA]))
    [orgA, orgB] [orgA] "2024" (fun _ => HttpResult.err 500)
    (fun _ => HttpResult.exn) (json_loads_dumps [orgA]) orgB
    (by decide) rfl
  exact ⟨h.1, h.2.1, h.2.2.2.1⟩

end OrgMonitor
